import Mathlib

/-
Verification development for the profitify seeding subsystem.

The Go sources embedded here:
  - the synthetic daily-bar generator generateDailyData / generateDailyAggData
    (two textually identical copies, one in the standalone seeding program and
    one in backend/scripts/local/seed_db.go),
  - the per-ticker generation loop of populateTable,
  - the worker / processBatch batch-writing pipeline with retry and backoff,
  - the per-item PutItem seeding loop of backend/scripts/local/seed_db.go,
  - models.DailySummary.Validate.

Modelling conventions: Go float32 arithmetic is embedded as exact rational
arithmetic; int64 and int32 become Int; the seeded rand.Rand source is
abstracted as explicit streams of draws (the Go library PRNG itself is outside
the repository); the DynamoDB client is abstracted as a function from attempt
number to success or failure; goroutine scheduling is sequentialised, so the
worker is modelled on the list of items it receives from the channel.
-/

namespace Profitify

/-- DailyAggStockItem mirrors the Go struct of the same name. The float32
fields are modelled as rationals, int64 and int32 fields as integers. The Go
field named open is rendered open_ because open is a Lean keyword. -/
structure DailyAggStockItem where
  ticker : String
  close : ℚ
  high : ℚ
  low : ℚ
  open_ : ℚ
  volume : ℚ
  timestamp : ℤ
  transactionCount : ℤ
  otc : Bool
  vwap : ℚ
  deriving DecidableEq, Repr, Inhabited

/-- Abstract model of the seeded rand.Rand source passed through the
generation loop. floats gives the successive outputs of Float32 (each in
the interval from 0 inclusive to 1 exclusive), ints the successive raw draws
consumed by Intn, pos the number of draws consumed so far. A seed determines
the streams; the streams themselves never change as draws are consumed. -/
structure RandSrc where
  floats : ℕ → ℚ
  ints : ℕ → ℕ
  pos : ℕ

/-- Model of the Go call r.Float32(): one draw from the float stream. -/
def RandSrc.float32 (r : RandSrc) : ℚ × RandSrc :=
  (r.floats r.pos, ⟨r.floats, r.ints, r.pos + 1⟩)

/-- Model of the Go call r.Intn n: one draw from the int stream, reduced
modulo n, matching the Go guarantee that Intn n lies in the interval from 0
inclusive to n exclusive. -/
def RandSrc.intn (r : RandSrc) (n : ℕ) : ℕ × RandSrc :=
  (r.ints r.pos % n, ⟨r.floats, r.ints, r.pos + 1⟩)

/-- A random source is valid when every Float32 output lies in the interval
from 0 inclusive to 1 exclusive, which the Go library guarantees. -/
def ValidSrc (r : RandSrc) : Prop :=
  ∀ i, 0 ≤ r.floats i ∧ r.floats i < 1

/-- generateDailyData, the per-step generator (lines 311 to 360 of the
standalone seeding program). Each Go random call is threaded explicitly; the
Go helpers max, min and abs on float32 are the lattice operations and the
absolute value on rationals. -/
def generateDailyData (ticker : String) (dateUnix : ℤ) (previousClose : ℚ)
    (r : RandSrc) : DailyAggStockItem × RandSrc :=
  let s0 := r.float32
  let dailyChange := (s0.1 - 1/2) * (1/10)
  let s1 := s0.2.float32
  let trend := s1.1 * (2/100)
  let s2 := s1.2.float32
  let volatility := s2.1 * (3/100)
  let changePercent := dailyChange + trend + volatility
  let newClose0 := previousClose * (1 + changePercent)
  let newClose := if newClose0 < 1 then 1 else newClose0
  let s3 := s2.2.float32
  let openP := previousClose * (1 + (s3.1 - 1/2) * (2/100))
  let s4 := s3.2.float32
  let high := max openP newClose * (1 + s4.1 * (3/100))
  let s5 := s4.2.float32
  let low := min openP newClose * (1 - s5.1 * (3/100))
  let volumeMultiplier := 1 + |changePercent| * 10
  let s6 := s5.2.intn 9000000
  let baseVolume : ℚ := 1000000 + (s6.1 : ℚ)
  let volume := baseVolume * volumeMultiplier
  let vwap := (openP + high + low + newClose) / 4
  let s7 := s6.2.intn 90000
  let transactionCount : ℤ := 10000 + (s7.1 : ℤ)
  let s8 := s7.2.float32
  let otc := decide (s8.1 < 1/100)
  (⟨ticker, newClose, high, low, openP, volume, dateUnix, transactionCount,
    otc, vwap⟩, s8.2)

/-- generateDailyAggData in backend/scripts/local/seed_db.go is a textually
identical copy of generateDailyData. -/
def generateDailyAggData := generateDailyData

/-- The combined daily change consumed by one generator step: the first three
Float32 draws of the source combined exactly as in generateDailyData. -/
def changePercentOf (r : RandSrc) : ℚ :=
  (r.floats r.pos - 1/2) * (1/10) + r.floats (r.pos + 1) * (2/100) +
    r.floats (r.pos + 1 + 1) * (3/100)

/-- Weekday of startDate.AddDate(0, 0, off), where sw is the Go weekday of
the start date (Sunday is 0, Saturday is 6). -/
def isWeekend (sw off : ℕ) : Bool :=
  (sw + off) % 7 == 6 || (sw + off) % 7 == 0

/-- Fueled form of the weekend-skipping while loop in populateTable. -/
def skipWeekendAux (sw : ℕ) : ℕ → ℕ → ℕ
  | 0, off => off
  | fuel + 1, off => if isWeekend sw off then skipWeekendAux sw fuel (off + 1) else off

/-- The weekend-skipping while loop: at most two consecutive weekend days
exist, so fuel 2 realises the loop exactly. -/
def skipWeekend (sw off : ℕ) : ℕ := skipWeekendAux sw 2 off

/-- The per-ticker generation loop body of populateTable (lines 163 to 183):
for each trading day, skip weekends, generate a bar from the current price,
emit it, feed its close back as the next previous close, advance the day
offset. startEpoch is the epoch-second timestamp of the start date and sw its
weekday; AddDate by whole days is epoch arithmetic by 86400 seconds. Returns
the emitted bars in order together with the final random source. -/
def genLoopAux (t : String) (startEpoch : ℤ) (sw : ℕ) :
    ℕ → ℕ → ℚ → RandSrc → List DailyAggStockItem × RandSrc
  | 0, _, _, r => ([], r)
  | days + 1, off, p, r =>
    let off2 := skipWeekend sw off
    let g := generateDailyData t (startEpoch + 86400 * off2) p r
    let rest := genLoopAux t startEpoch sw days (off2 + 1) g.1.close g.2
    (g.1 :: rest.1, rest.2)

/-- The ticker list of the seeding program. -/
def tickers : List String :=
  ["AAPL", "GOOGL", "MSFT", "TSLA", "AMZN", "NVDA", "META",
   "JPM", "JNJ", "PG", "UNH", "HD", "BAC", "PFE", "ABBV"]

/-- getBasePrice: the Go map lookup with default 100. -/
def getBasePrice (ticker : String) : ℚ :=
  if ticker = "AAPL" then 175
  else if ticker = "GOOGL" then 140
  else if ticker = "MSFT" then 380
  else if ticker = "TSLA" then 240
  else if ticker = "AMZN" then 155
  else if ticker = "NVDA" then 850
  else if ticker = "META" then 485
  else if ticker = "JPM" then 195
  else if ticker = "JNJ" then 155
  else if ticker = "UNH" then 520
  else if ticker = "PFE" then 28
  else if ticker = "ABBV" then 165
  else if ticker = "BAC" then 37
  else if ticker = "HD" then 380
  else if ticker = "PG" then 155
  else 100

/-- totalDays, the Go constant 5 * 365 * 5 / 7 under integer division. -/
def totalDays : ℕ := 5 * 365 * 5 / 7

/-- batchSize, the Go constant 25 (the DynamoDB bulk-write limit). -/
def batchSize : ℕ := 25

/-- maxRetries, the Go local constant 3 of processBatch. -/
def maxRetries : ℕ := 3

/-- Outcome of one processBatch call: the returned error (none mirrors a nil
Go error), the number of BatchWriteItem calls performed, and the successive
backoff waits in seconds. -/
structure WriteOutcome where
  err : Option String
  calls : ℕ
  waits : List ℕ
  deriving DecidableEq, Repr

/-- The retry for-loop of processBatch (lines 263 to 288). store gives the
outcome of the BatchWriteItem call at each attempt index. The loop counter is
attempt; fuel is the number of remaining iterations, maxRetries minus attempt
at entry. On success the loop returns nil after its single call; on the final
attempt it returns the error; otherwise it sleeps 2 to the power attempt
seconds and retries. Exhausted fuel is the fall-through return nil, which is
unreachable when the loop runs at all. -/
def retryLoop (store : ℕ → Bool) (maxR : ℕ) : ℕ → ℕ → WriteOutcome
  | _, 0 => ⟨none, 0, []⟩
  | attempt, fuel + 1 =>
    if store attempt then ⟨none, 1, []⟩
    else if attempt = maxR - 1 then
      ⟨some ("failed to process batch after max attempts"), 1, []⟩
    else
      let rest := retryLoop store maxR (attempt + 1) fuel
      ⟨rest.err, rest.calls + 1, 2 ^ attempt :: rest.waits⟩

/-- The marshalling for-loop of processBatch (lines 249 to 260): convert the
items one by one, aborting with an error at the first item that fails to
marshal. marshal abstracts attributevalue.MarshalMap. -/
def buildWriteRequests {A W : Type} (marshal : A → Option W) :
    List A → Option (List W)
  | [] => some []
  | item :: rest =>
    match marshal item with
    | none => none
    | some w =>
      match buildWriteRequests marshal rest with
      | none => none
      | some ws => some (w :: ws)

/-- processBatch of the standalone seeding program (lines 245 to 289,
duplicated at seed_db.go lines 678 to 722): marshal the whole batch, aborting
on the first marshal failure without calling the store, then run the retry
loop over BatchWriteItem. -/
def processBatch {A W : Type} (marshal : A → Option W) (store : ℕ → Bool)
    (batch : List A) : WriteOutcome :=
  match buildWriteRequests marshal batch with
  | none => ⟨some ("failed to marshal item"), 0, []⟩
  | some _ => retryLoop store maxRetries 0 maxRetries

/-- processBatch of backend/scripts/local/seed_db.go lines 143 to 159, the
per-item PutItem variant: an item that fails to marshal is logged and skipped
with continue; every item that marshals is submitted to the store with
PutItem (a PutItem error is also logged and skipped). Returns the wire values
submitted to the store, in order. -/
def processBatchSeed {A W : Type} (marshal : A → Option W) :
    List A → List W
  | [] => []
  | item :: rest =>
    match marshal item with
    | none => processBatchSeed marshal rest
    | some w => w :: processBatchSeed marshal rest

/-- The shared-counter update a worker performs after one processBatch call
(lines 217 to 224 and 231 to 239): on a nil error the batch length is added,
under the mutex, to the shared total; on an error the total is untouched. -/
def workerUpdate {A : Type} (total : ℕ) (batch : List A)
    (out : WriteOutcome) : ℕ :=
  if out.err = none then total + batch.length else total

/-- The worker goroutine body (lines 206 to 243) on the list of items it
receives from the channel: append each item to the private batch; when the
batch reaches batchSize, flush it through processBatch, update the shared
total on success, reset the batch and bump the batch counter; after the
channel is exhausted, flush the non-empty residual batch once. stores gives
the per-attempt store outcomes seen by the flush with a given batch counter.
Returns the flushed batches in order and the final shared total. -/
def worker {A W : Type} (marshal : A → Option W) (stores : ℕ → ℕ → Bool) :
    List A → List A → ℕ → ℕ → List (List A) × ℕ
  | [], batch, batchCount, total =>
    if batch.isEmpty then ([], total)
    else ([batch],
      workerUpdate total batch (processBatch marshal (stores batchCount) batch))
  | item :: rest, batch, batchCount, total =>
    let batch2 := batch ++ [item]
    if batchSize ≤ batch2.length then
      let out := processBatch marshal (stores batchCount) batch2
      let res := worker marshal stores rest [] (batchCount + 1)
        (workerUpdate total batch2 out)
      (batch2 :: res.1, res.2)
    else
      worker marshal stores rest batch2 batchCount total

/-- The generation of populateTable over the whole ticker list (lines 155 to
184): for each ticker in order, run the per-ticker loop from its base price,
threading the single random source across tickers. -/
def genAllAux (startEpoch : ℤ) (sw : ℕ) (days : ℕ) :
    List String → RandSrc → List DailyAggStockItem
  | [], _ => []
  | t :: ts, r =>
    let res := genLoopAux t startEpoch sw days 0 (getBasePrice t) r
    res.1 ++ genAllAux startEpoch sw days ts res.2

/-- populateTable (lines 127 to 204), sequentialised: generate every bar,
drain them through one worker, and return the pair of the Go return value and
the final shared total. The Go function reports the total and always returns
nil; batch errors are logged inside the workers and never propagated. -/
def populateTable {W : Type} (marshal : DailyAggStockItem → Option W)
    (stores : ℕ → ℕ → Bool) (startEpoch : ℤ) (sw : ℕ) (r : RandSrc) :
    Option String × ℕ :=
  let items := genAllAux startEpoch sw totalDays tickers r
  let res := worker marshal stores items [] 0 0
  (none, res.2)

/-- DailySummary mirrors the Go struct in internal/models/daily_summary.go;
its fields coincide with DailyAggStockItem. -/
structure DailySummary where
  ticker : String
  close : ℚ
  high : ℚ
  low : ℚ
  open_ : ℚ
  volume : ℚ
  timestamp : ℤ
  transactionCount : ℤ
  otc : Bool
  vwap : ℚ
  deriving DecidableEq, Repr

/-- Validate (daily_summary.go lines 22 to 48): the checks in source order,
returning the first failing message, or none for a nil error. -/
def DailySummary.Validate (d : DailySummary) : Option String :=
  if d.ticker = "" then some ("ticker is required")
  else if d.timestamp ≤ 0 then some ("timestamp must be positive")
  else if d.high < d.low then some ("high price cannot be less than low price")
  else if d.open_ ≤ 0 ∨ d.close ≤ 0 ∨ d.high ≤ 0 ∨ d.low ≤ 0 then
    some ("prices must be positive")
  else if d.volume < 0 then some ("volume cannot be negative")
  else if d.vwap ≠ 0 ∧ (d.vwap < d.low ∨ d.vwap > d.high) then
    some ("VWAP must be between low and high prices")
  else none

/-- The conjunction of bar facts established for every generated bar. -/
def BarInv (b : DailyAggStockItem) : Prop :=
  0 < b.open_ ∧ 0 < b.high ∧ 0 < b.low ∧ 1 ≤ b.close ∧
  max b.open_ b.close ≤ b.high ∧ b.low ≤ min b.open_ b.close ∧
  b.vwap = (b.open_ + b.high + b.low + b.close) / 4 ∧
  b.low ≤ b.vwap ∧ b.vwap ≤ b.high

/-- A fixed concrete random source used to instantiate theorems: every
Float32 draw is one half, every Intn draw is zero. -/
def constSrc : RandSrc := ⟨fun _ => 1/2, fun _ => 0, 0⟩

/-- A concrete random source whose Float32 draws are all 99/100: a valid
draw sequence on which the combined daily change is close to its supremum. -/
def cexSrc : RandSrc := ⟨fun _ => 99/100, fun _ => 0, 0⟩

/-- A concrete marshal function that fails on the item 0 and succeeds on
every other natural number. -/
def marshalCex : ℕ → Option ℕ := fun n => if n = 0 then none else some n

/-- A concrete store that succeeds on every attempt. -/
def trueStore : ℕ → Bool := fun _ => true

/-- A concrete store that fails on every attempt. -/
def falseStore : ℕ → Bool := fun _ => false

/-- A concrete store that fails on attempt 0 and succeeds from attempt 1. -/
def storeSucc1 : ℕ → Bool := fun n => decide (1 ≤ n)

/-- A concrete per-batch store family that always succeeds. -/
def trueStores : ℕ → ℕ → Bool := fun _ _ => true

/-- A concrete marshal function on bars used to instantiate the pipeline. -/
def constMarshal : DailyAggStockItem → Option ℕ := fun _ => some 0

/-- A concrete DailySummary whose open exceeds its high yet which Validate
accepts. -/
def exOpenAboveHigh : DailySummary :=
  ⟨"A", 2, 5, 1, 10, 0, 1, 0, false, 0⟩

/-- A concrete DailySummary whose close is below its low yet which Validate
accepts. -/
def exCloseBelowLow : DailySummary :=
  ⟨"B", 1, 5, 2, 3, 0, 1, 0, false, 0⟩

lemma constSrc_valid : ValidSrc constSrc :=
  fun _ => ⟨by norm_num [constSrc], by norm_num [constSrc]⟩

lemma generateDailyAggData_eq : generateDailyAggData = generateDailyData := rfl

lemma generateDailyData_floats (t : String) (dU : ℤ) (p : ℚ) (r : RandSrc) :
    (generateDailyData t dU p r).2.floats = r.floats := by
  simp [generateDailyData, RandSrc.float32, RandSrc.intn]

lemma generateDailyData_validSrc (t : String) (dU : ℤ) (p : ℚ) (r : RandSrc)
    (hr : ValidSrc r) : ValidSrc (generateDailyData t dU p r).2 := by
  intro i
  rw [generateDailyData_floats]
  exact hr i

lemma generateDailyData_inv (t : String) (dU : ℤ) (p : ℚ) (r : RandSrc)
    (hp : 0 < p) (hr : ValidSrc r) :
    BarInv (generateDailyData t dU p r).1 := by
  obtain ⟨h3a, h3b⟩ := hr (r.pos + 1 + 1 + 1)
  obtain ⟨h4a, h4b⟩ := hr (r.pos + 1 + 1 + 1 + 1)
  obtain ⟨h5a, h5b⟩ := hr (r.pos + 1 + 1 + 1 + 1 + 1)
  simp only [BarInv, generateDailyData, RandSrc.float32, RandSrc.intn]
  set f3 := r.floats (r.pos + 1 + 1 + 1) with hf3def
  set f4 := r.floats (r.pos + 1 + 1 + 1 + 1) with hf4def
  set f5 := r.floats (r.pos + 1 + 1 + 1 + 1 + 1) with hf5def
  have hfac3 : (0:ℚ) < 1 + (f3 - 1/2) * (2/100) := by linarith
  have hoP : 0 < p * (1 + (f3 - 1/2) * (2/100)) := mul_pos hp hfac3
  have hfac4 : (1:ℚ) ≤ 1 + f4 * (3/100) := by linarith
  have hfac4pos : (0:ℚ) < 1 + f4 * (3/100) := by linarith
  have hfac5pos : (0:ℚ) < 1 - f5 * (3/100) := by linarith
  have hfac5le : (1:ℚ) - f5 * (3/100) ≤ 1 := by linarith
  split_ifs with hcase
  · set oP := p * (1 + (f3 - 1/2) * (2/100)) with hoPdef
    have hM : (0:ℚ) < max oP 1 := lt_max_iff.mpr (Or.inl hoP)
    have hm : (0:ℚ) < min oP 1 := lt_min hoP one_pos
    have hH : max oP 1 ≤ max oP 1 * (1 + f4 * (3/100)) :=
      le_mul_of_one_le_right hM.le hfac4
    have hL : min oP 1 * (1 - f5 * (3/100)) ≤ min oP 1 :=
      mul_le_of_le_one_right hm.le hfac5le
    have hHpos : (0:ℚ) < max oP 1 * (1 + f4 * (3/100)) := mul_pos hM hfac4pos
    have hLpos : (0:ℚ) < min oP 1 * (1 - f5 * (3/100)) := mul_pos hm hfac5pos
    have hmo := min_le_left oP 1
    have hmc := min_le_right oP 1
    have hMo := le_max_left oP 1
    have hMc := le_max_right oP 1
    have hmM : min oP 1 ≤ max oP 1 := min_le_max
    refine ⟨hoP, hHpos, hLpos, le_refl 1, hH, hL, trivial, ?_, ?_⟩
    · linarith
    · linarith
  · have hcl : (1:ℚ) ≤ p * (1 + ((r.floats r.pos - 1/2) * (1/10) +
        r.floats (r.pos + 1) * (2/100) + r.floats (r.pos + 1 + 1) * (3/100))) :=
      not_lt.mp hcase
    set nC := p * (1 + ((r.floats r.pos - 1/2) * (1/10) +
      r.floats (r.pos + 1) * (2/100) + r.floats (r.pos + 1 + 1) * (3/100))) with hnCdef
    set oP := p * (1 + (f3 - 1/2) * (2/100)) with hoPdef
    have hnCpos : (0:ℚ) < nC := lt_of_lt_of_le one_pos hcl
    have hM : (0:ℚ) < max oP nC := lt_max_iff.mpr (Or.inl hoP)
    have hm : (0:ℚ) < min oP nC := lt_min hoP hnCpos
    have hH : max oP nC ≤ max oP nC * (1 + f4 * (3/100)) :=
      le_mul_of_one_le_right hM.le hfac4
    have hL : min oP nC * (1 - f5 * (3/100)) ≤ min oP nC :=
      mul_le_of_le_one_right hm.le hfac5le
    have hHpos : (0:ℚ) < max oP nC * (1 + f4 * (3/100)) := mul_pos hM hfac4pos
    have hLpos : (0:ℚ) < min oP nC * (1 - f5 * (3/100)) := mul_pos hm hfac5pos
    have hmo := min_le_left oP nC
    have hmc := min_le_right oP nC
    have hMo := le_max_left oP nC
    have hMc := le_max_right oP nC
    have hmM : min oP nC ≤ max oP nC := min_le_max
    refine ⟨hoP, hHpos, hLpos, hcl, hH, hL, trivial, ?_, ?_⟩
    · linarith
    · linarith

lemma genLoopAux_inv (t : String) (e : ℤ) (sw : ℕ) :
    ∀ (days off : ℕ) (p : ℚ) (r : RandSrc), 0 < p → ValidSrc r →
      ∀ b ∈ (genLoopAux t e sw days off p r).1, BarInv b := by
  intro days
  induction days with
  | zero =>
    intro off p r _ _ b hb
    simp [genLoopAux] at hb
  | succ n ih =>
    intro off p r hp hr b hb
    simp only [genLoopAux, List.mem_cons] at hb
    rcases hb with rfl | hb
    · exact generateDailyData_inv t _ p r hp hr
    · have hinv := generateDailyData_inv t
        (e + 86400 * (skipWeekend sw off : ℕ)) p r hp hr
      have hclose : (0:ℚ) <
          (generateDailyData t (e + 86400 * (skipWeekend sw off : ℕ)) p r).1.close :=
        lt_of_lt_of_le one_pos hinv.2.2.2.1
      exact ih _ _ _ hclose (generateDailyData_validSrc _ _ _ _ hr) b hb

lemma generateDailyData_close (t : String) (dU : ℤ) (p : ℚ) (r : RandSrc) :
    (generateDailyData t dU p r).1.close =
      if p * (1 + changePercentOf r) < 1 then 1
      else p * (1 + changePercentOf r) := by
  simp only [generateDailyData, RandSrc.float32, RandSrc.intn, changePercentOf]

lemma changePercentOf_bounds (r : RandSrc) (hr : ValidSrc r) :
    -(1/20) ≤ changePercentOf r ∧ changePercentOf r < 1/10 := by
  obtain ⟨h0a, h0b⟩ := hr r.pos
  obtain ⟨h1a, h1b⟩ := hr (r.pos + 1)
  obtain ⟨h2a, h2b⟩ := hr (r.pos + 1 + 1)
  unfold changePercentOf
  constructor <;> linarith

lemma genLoopAux_head (t : String) (e : ℤ) (sw days off : ℕ) (p : ℚ)
    (r : RandSrc) :
    (genLoopAux t e sw (days + 1) off p r).1.head? =
      some (generateDailyData t (e + 86400 * (skipWeekend sw off : ℕ)) p r).1 := by
  simp [genLoopAux]

lemma genLoopAux_headI_mem (t : String) (e : ℤ) (sw days off : ℕ) (p : ℚ)
    (r : RandSrc) :
    (genLoopAux t e sw (days + 1) off p r).1.headI ∈
      (genLoopAux t e sw (days + 1) off p r).1 := by
  simp [genLoopAux]

lemma genLoopAux_head_headI (t : String) (e : ℤ) (sw days off : ℕ) (p : ℚ)
    (r : RandSrc) :
    (genLoopAux t e sw (days + 1) off p r).1.head? =
      some ((genLoopAux t e sw (days + 1) off p r).1.headI) := by
  simp [genLoopAux]

lemma genLoopAux_congr (t : String) (e : ℤ) (sw days off : ℕ) (p : ℚ)
    (r1 r2 : RandSrc) (hf : ∀ i, r1.floats i = r2.floats i)
    (hi : ∀ i, r1.ints i = r2.ints i) (hpos : r1.pos = r2.pos) :
    genLoopAux t e sw days off p r1 = genLoopAux t e sw days off p r2 := by
  obtain ⟨g1, j1, q1⟩ := r1
  obtain ⟨g2, j2, q2⟩ := r2
  obtain rfl : g1 = g2 := funext hf
  obtain rfl : j1 = j2 := funext hi
  obtain rfl : q1 = q2 := hpos
  rfl

/-- C1: every bar produced by the generation loop around generateDailyData
(equivalently generateDailyAggData) from a positive previous close satisfies
high at least max open close, low at most min open close, and has strictly
positive open, high, low and close. -/
theorem c1_generated_bars_valid (t : String) (e : ℤ) (sw days off : ℕ)
    (p : ℚ) (r : RandSrc) (hp : 0 < p) (hr : ValidSrc r)
    (b : DailyAggStockItem) (hb : b ∈ (genLoopAux t e sw days off p r).1) :
    max b.open_ b.close ≤ b.high ∧ b.low ≤ min b.open_ b.close ∧
      0 < b.open_ ∧ 0 < b.high ∧ 0 < b.low ∧ 0 < b.close := by
  obtain ⟨ho, hh, hl, hc, hmax, hmin, _, _, _⟩ :=
    genLoopAux_inv t e sw days off p r hp hr b hb
  exact ⟨hmax, hmin, ho, hh, hl, lt_of_lt_of_le one_pos hc⟩

theorem c1_generated_bars_valid_witness :
    max ((genLoopAux ("T") 0 1 1 0 100 constSrc).1.headI).open_
        ((genLoopAux ("T") 0 1 1 0 100 constSrc).1.headI).close ≤
      ((genLoopAux ("T") 0 1 1 0 100 constSrc).1.headI).high ∧
    ((genLoopAux ("T") 0 1 1 0 100 constSrc).1.headI).low ≤
      min ((genLoopAux ("T") 0 1 1 0 100 constSrc).1.headI).open_
        ((genLoopAux ("T") 0 1 1 0 100 constSrc).1.headI).close ∧
    0 < ((genLoopAux ("T") 0 1 1 0 100 constSrc).1.headI).open_ ∧
    0 < ((genLoopAux ("T") 0 1 1 0 100 constSrc).1.headI).high ∧
    0 < ((genLoopAux ("T") 0 1 1 0 100 constSrc).1.headI).low ∧
    0 < ((genLoopAux ("T") 0 1 1 0 100 constSrc).1.headI).close :=
  c1_generated_bars_valid ("T") 0 1 1 0 100 constSrc (by norm_num)
    constSrc_valid ((genLoopAux ("T") 0 1 1 0 100 constSrc).1.headI)
    (genLoopAux_headI_mem ("T") 0 1 0 0 100 constSrc)

/-- C2: the generation loop is deterministic. All of its inputs are explicit
(the wall-clock start date of populateTable enters only through the explicit
startEpoch and start-weekday parameters), so two runs over sources with equal
draw streams and equal positions produce identical bar sequences, fields and
order included. -/
theorem c2_generator_deterministic (t : String) (e : ℤ) (sw days off : ℕ)
    (p : ℚ) (r1 r2 : RandSrc) (hf : ∀ i, r1.floats i = r2.floats i)
    (hi : ∀ i, r1.ints i = r2.ints i) (hpos : r1.pos = r2.pos) :
    genLoopAux t e sw days off p r1 = genLoopAux t e sw days off p r2 :=
  genLoopAux_congr t e sw days off p r1 r2 hf hi hpos

theorem c2_generator_deterministic_witness :
    genLoopAux ("T") 0 1 3 0 100 constSrc = genLoopAux ("T") 0 1 3 0 100 constSrc :=
  c2_generator_deterministic ("T") 0 1 3 0 100 constSrc constSrc
    (fun _ => rfl) (fun _ => rfl) rfl

/-- C7: at every generation step with previous close p, the emitted close is
p times one plus the combined change when that product is at least 1, and 1
otherwise; in particular every emitted close is at least 1. -/
theorem c7_close_floored (t : String) (dU : ℤ) (p : ℚ) (r : RandSrc)
    (_hp : 0 < p) :
    (generateDailyData t dU p r).1.close =
      (if p * (1 + changePercentOf r) < 1 then 1
       else p * (1 + changePercentOf r)) ∧
    1 ≤ (generateDailyData t dU p r).1.close := by
  refine ⟨generateDailyData_close t dU p r, ?_⟩
  rw [generateDailyData_close]
  split_ifs with h
  · exact le_refl 1
  · exact not_lt.mp h

theorem c7_close_floored_witness :
    (generateDailyData ("T") 0 100 constSrc).1.close =
      (if 100 * (1 + changePercentOf constSrc) < 1 then 1
       else 100 * (1 + changePercentOf constSrc)) ∧
    1 ≤ (generateDailyData ("T") 0 100 constSrc).1.close :=
  c7_close_floored ("T") 0 100 constSrc (by norm_num)

/-- C8: every bar produced by the generation loop from a positive previous
close has vwap equal to the arithmetic mean of open, high, low and close,
and that vwap lies between low and high. -/
theorem c8_vwap_mean_in_range (t : String) (e : ℤ) (sw days off : ℕ)
    (p : ℚ) (r : RandSrc) (hp : 0 < p) (hr : ValidSrc r)
    (b : DailyAggStockItem) (hb : b ∈ (genLoopAux t e sw days off p r).1) :
    b.vwap = (b.open_ + b.high + b.low + b.close) / 4 ∧
      b.low ≤ b.vwap ∧ b.vwap ≤ b.high := by
  obtain ⟨_, _, _, _, _, _, hv, hlv, hvh⟩ :=
    genLoopAux_inv t e sw days off p r hp hr b hb
  exact ⟨hv, hlv, hvh⟩

theorem c8_vwap_mean_in_range_witness :
    ((genLoopAux ("V") 0 1 1 0 100 constSrc).1.headI).vwap =
      (((genLoopAux ("V") 0 1 1 0 100 constSrc).1.headI).open_ +
       ((genLoopAux ("V") 0 1 1 0 100 constSrc).1.headI).high +
       ((genLoopAux ("V") 0 1 1 0 100 constSrc).1.headI).low +
       ((genLoopAux ("V") 0 1 1 0 100 constSrc).1.headI).close) / 4 ∧
    ((genLoopAux ("V") 0 1 1 0 100 constSrc).1.headI).low ≤
      ((genLoopAux ("V") 0 1 1 0 100 constSrc).1.headI).vwap ∧
    ((genLoopAux ("V") 0 1 1 0 100 constSrc).1.headI).vwap ≤
      ((genLoopAux ("V") 0 1 1 0 100 constSrc).1.headI).high :=
  c8_vwap_mean_in_range ("V") 0 1 1 0 100 constSrc (by norm_num)
    constSrc_valid ((genLoopAux ("V") 0 1 1 0 100 constSrc).1.headI)
    (genLoopAux_headI_mem ("V") 0 1 0 0 100 constSrc)

/-- C9 as stated is false: the combined change can approach but not reach
ten percent, so a first-bar close of up to but excluding 110 is reachable.
On the valid source cexSrc (all Float32 draws 99/100) the first bar from
base price 100 closes at 2197/20, which is 109.85, outside the closed
interval from 95 to 107. -/
theorem c9_counterexample :
    ValidSrc cexSrc ∧
    (genLoopAux ("TEST") 0 1 5 0 100 cexSrc).1.head?.map
      DailyAggStockItem.close = some (2197/20) ∧
    ¬ ((2197/20 : ℚ) ≤ 107) := by
  refine ⟨fun _ => ⟨by norm_num [cexSrc], by norm_num [cexSrc]⟩, ?_, by norm_num⟩
  show (genLoopAux ("TEST") 0 1 (4 + 1) 0 100 cexSrc).1.head?.map
    DailyAggStockItem.close = some (2197/20)
  rw [genLoopAux_head]
  rw [Option.map_some']
  rw [generateDailyData_close]
  norm_num [changePercentOf, cexSrc]

/-- C9 amended: for every valid source, the first bar generated from base
price 100 has close in the half-open interval from 95 inclusive to 110
exclusive, and a second run over a source with the same draw streams and
position reproduces the identical first bar. -/
theorem c9_first_bar_amended (e : ℤ) (sw days off : ℕ) (r r2 : RandSrc)
    (hr : ValidSrc r) (hf : ∀ i, r.floats i = r2.floats i)
    (hi : ∀ i, r.ints i = r2.ints i) (hpos : r.pos = r2.pos)
    (b : DailyAggStockItem)
    (hb : (genLoopAux ("TEST") e sw (days + 1) off 100 r).1.head? = some b) :
    95 ≤ b.close ∧ b.close < 110 ∧
      (genLoopAux ("TEST") e sw (days + 1) off 100 r2).1.head? = some b := by
  obtain ⟨hcl, hcu⟩ := changePercentOf_bounds r hr
  rw [genLoopAux_head] at hb
  obtain rfl : b = _ := (Option.some.injEq _ _).mp hb.symm
  refine ⟨?_, ?_, ?_⟩
  · rw [generateDailyData_close]
    rw [if_neg (by linarith)]
    linarith
  · rw [generateDailyData_close]
    rw [if_neg (by linarith)]
    linarith
  · rw [← genLoopAux_congr ("TEST") e sw (days + 1) off 100 r r2 hf hi hpos]
    exact genLoopAux_head ("TEST") e sw days off 100 r

lemma buildWriteRequests_isSome {A W : Type} (marshal : A → Option W) :
    ∀ (l : List A), (∀ a ∈ l, (marshal a).isSome) →
      ∃ ws, buildWriteRequests marshal l = some ws := by
  intro l
  induction l with
  | nil => exact fun _ => ⟨[], rfl⟩
  | cons a rest ih =>
    intro h
    obtain ⟨w, hw⟩ :=
      Option.isSome_iff_exists.mp (h a (List.mem_cons_self a rest))
    obtain ⟨ws, hws⟩ := ih (fun b hb => h b (List.mem_cons_of_mem a hb))
    exact ⟨w :: ws, by simp [buildWriteRequests, hw, hws]⟩

lemma buildWriteRequests_none_of_mem {A W : Type} (marshal : A → Option W)
    (bad : A) (hbad : marshal bad = none) :
    ∀ (l : List A), bad ∈ l → buildWriteRequests marshal l = none := by
  intro l
  induction l with
  | nil => intro h; cases h
  | cons a rest ih =>
    intro h
    rcases List.mem_cons.mp h with rfl | h
    · simp [buildWriteRequests, hbad]
    · cases hma : marshal a with
      | none => simp [buildWriteRequests, hma]
      | some w => simp [buildWriteRequests, hma, ih h]

lemma retryLoop_firstSucc (store : ℕ → Bool) (k : ℕ) (hk : k < 3)
    (hfail : ∀ n < k, store n = false) (hsucc : store k = true) :
    retryLoop store 3 0 3 =
      ⟨none, k + 1, (List.range k).map (fun a => 2 ^ a)⟩ := by
  interval_cases k
  · simp [retryLoop, hsucc]
  · simp [retryLoop, hfail 0 (by norm_num), hsucc, List.range_succ]
  · simp [retryLoop, hfail 0 (by norm_num), hfail 1 (by norm_num), hsucc,
      List.range_succ]

lemma retryLoop_allFail (store : ℕ → Bool) (hfail : ∀ n, store n = false) :
    retryLoop store 3 0 3 =
      ⟨some ("failed to process batch after max attempts"), 3, [1, 2]⟩ := by
  simp [retryLoop, hfail]

lemma processBatch_err_allFail {A W : Type} (marshal : A → Option W)
    (store : ℕ → Bool) (hfail : ∀ n, store n = false) (batch : List A) :
    (processBatch marshal store batch).err.isSome := by
  unfold processBatch
  cases h : buildWriteRequests marshal batch with
  | none => rfl
  | some ws => simp [maxRetries, retryLoop_allFail store hfail]

lemma workerUpdate_of_err {A : Type} (total : ℕ) (batch : List A)
    (out : WriteOutcome) (h : out.err.isSome) :
    workerUpdate total batch out = total := by
  unfold workerUpdate
  rw [if_neg]
  intro hc
  rw [hc] at h
  simp at h

lemma worker_total_allFail {A W : Type} (marshal : A → Option W)
    (stores : ℕ → ℕ → Bool) (hfail : ∀ bc n, stores bc n = false) :
    ∀ (items acc : List A) (bc total : ℕ),
      (worker marshal stores items acc bc total).2 = total := by
  intro items
  induction items with
  | nil =>
    intro acc bc total
    simp only [worker]
    split_ifs with h
    · rfl
    · exact workerUpdate_of_err total acc _
        (processBatch_err_allFail marshal (stores bc) (hfail bc) acc)
  | cons a rest ih =>
    intro acc bc total
    simp only [worker]
    split_ifs with h
    · exact (ih [] (bc + 1) _).trans (workerUpdate_of_err total (acc ++ [a]) _
        (processBatch_err_allFail marshal (stores bc) (hfail bc) (acc ++ [a])))
    · exact ih (acc ++ [a]) bc total

/-- C3: on a non-empty batch whose items all marshal, against a store that
fails the first k attempts (k below 3) and succeeds on attempt k, processBatch
returns nil after exactly k plus 1 bulk-write calls, having waited 2 to the
power a seconds after each failed attempt a, and the worker then adds the
batch length to the shared total exactly once. -/
theorem c3_retry_backoff {A W : Type} (marshal : A → Option W)
    (store : ℕ → Bool) (batch : List A) (k : ℕ) (hk : k < 3)
    (_hne : batch ≠ []) (hm : ∀ a ∈ batch, (marshal a).isSome)
    (hfail : ∀ n < k, store n = false) (hsucc : store k = true) (total : ℕ) :
    (processBatch marshal store batch).err = none ∧
    (processBatch marshal store batch).calls = k + 1 ∧
    (processBatch marshal store batch).waits =
      (List.range k).map (fun a => 2 ^ a) ∧
    workerUpdate total batch (processBatch marshal store batch) =
      total + batch.length := by
  obtain ⟨ws, hws⟩ := buildWriteRequests_isSome marshal batch hm
  have hpb : processBatch marshal store batch =
      ⟨none, k + 1, (List.range k).map (fun a => 2 ^ a)⟩ := by
    simp [processBatch, hws, maxRetries, retryLoop_firstSucc store k hk hfail hsucc]
  rw [hpb]
  exact ⟨rfl, rfl, rfl, by simp [workerUpdate]⟩

theorem c3_retry_backoff_witness :
    (processBatch some storeSucc1 [7]).err = none ∧
    (processBatch some storeSucc1 [7]).calls = 1 + 1 ∧
    (processBatch some storeSucc1 [7]).waits =
      (List.range 1).map (fun a => 2 ^ a) ∧
    workerUpdate 5 [7] (processBatch some storeSucc1 [7]) =
      5 + List.length [7] :=
  c3_retry_backoff some storeSucc1 [7] 1 (by norm_num) (by simp)
    (fun a _ => rfl) (fun n hn => by interval_cases n; rfl) rfl 5

/-- C4: on a non-empty batch whose items all marshal, against a store that
always fails, processBatch returns an error after exactly 3 bulk-write calls,
the worker does not add that batch to the shared total and continues (with an
always-failing store the whole worker run leaves the total at its initial
value), and populateTable still returns nil, so the process exit status is
unaffected. -/
theorem c4_retry_exhaustion {A W W2 : Type} (marshal : A → Option W)
    (store : ℕ → Bool) (batch : List A) (_hne : batch ≠ [])
    (hm : ∀ a ∈ batch, (marshal a).isSome) (hfail : ∀ n, store n = false)
    (total : ℕ) (marshal2 : DailyAggStockItem → Option W2) (e : ℤ) (sw : ℕ)
    (r : RandSrc) :
    (processBatch marshal store batch).err.isSome ∧
    (processBatch marshal store batch).calls = 3 ∧
    workerUpdate total batch (processBatch marshal store batch) = total ∧
    (∀ (items acc : List A) (bc t0 : ℕ),
      (worker marshal (fun _ => store) items acc bc t0).2 = t0) ∧
    (populateTable marshal2 (fun _ => store) e sw r).1 = none := by
  obtain ⟨ws, hws⟩ := buildWriteRequests_isSome marshal batch hm
  have hpb : processBatch marshal store batch =
      ⟨some ("failed to process batch after max attempts"), 3, [1, 2]⟩ := by
    simp [processBatch, hws, maxRetries, retryLoop_allFail store hfail]
  refine ⟨by rw [hpb]; rfl, by rw [hpb], by rw [hpb]; simp [workerUpdate],
    ?_, rfl⟩
  exact worker_total_allFail marshal (fun _ => store) (fun _ n => hfail n)

theorem c4_retry_exhaustion_witness :
    (processBatch some falseStore [3, 4]).err.isSome ∧
    (processBatch some falseStore [3, 4]).calls = 3 ∧
    workerUpdate 9 [3, 4] (processBatch some falseStore [3, 4]) = 9 ∧
    (∀ (items acc : List ℕ) (bc t0 : ℕ),
      (worker some (fun _ => falseStore) items acc bc t0).2 = t0) ∧
    (populateTable constMarshal (fun _ => falseStore) 0 1 constSrc).1 = none :=
  c4_retry_exhaustion some falseStore [3, 4] (by simp) (fun a _ => rfl)
    (fun _ => rfl) 9 constMarshal 0 1 constSrc

lemma processBatchSeed_append {A W : Type} (marshal : A → Option W) :
    ∀ (l1 l2 : List A), processBatchSeed marshal (l1 ++ l2) =
      processBatchSeed marshal l1 ++ processBatchSeed marshal l2 := by
  intro l1 l2
  induction l1 with
  | nil => rfl
  | cons a rest ih =>
    rw [List.cons_append]
    cases h : marshal a with
    | none => simp [processBatchSeed, h, ih]
    | some w => simp [processBatchSeed, h, ih]

lemma processBatchSeed_eq_filterMap {A W : Type} (marshal : A → Option W) :
    ∀ l, processBatchSeed marshal l = l.filterMap marshal := by
  intro l
  induction l with
  | nil => rfl
  | cons a rest ih =>
    cases h : marshal a with
    | none => simp [processBatchSeed, h, ih]
    | some w => simp [processBatchSeed, h, ih]

/-- C5 as stated is false for the bulk-write processBatch: on the batch
containing the items 0 and 1 with a marshal function that fails exactly on 0,
that processBatch returns an error having made zero store calls, so the
remaining item 1 is not submitted and the batch is aborted. -/
theorem c5_counterexample :
    marshalCex 0 = none ∧ (marshalCex 1).isSome ∧
    (processBatch marshalCex trueStore [0, 1]).err.isSome ∧
    (processBatch marshalCex trueStore [0, 1]).calls = 0 := by decide

/-- C5 amended: in the per-item PutItem seeding variant (processBatchSeed),
an item that fails to marshal is skipped and every remaining item of the
batch is still submitted to the store, in order (the submitted wire values
are exactly the filterMap of the marshal function); in the bulk-write variant
(processBatch), any marshal failure instead aborts the whole batch with an
error before any store call. -/
theorem c5_marshal_skip_amended {A W : Type} (marshal : A → Option W)
    (pre post : List A) (bad : A) (hbad : marshal bad = none) :
    processBatchSeed marshal (pre ++ bad :: post) =
      processBatchSeed marshal pre ++ processBatchSeed marshal post ∧
    processBatchSeed marshal (pre ++ bad :: post) =
      (pre ++ bad :: post).filterMap marshal ∧
    (∀ store : ℕ → Bool,
      (processBatch marshal store (pre ++ bad :: post)).calls = 0 ∧
      (processBatch marshal store (pre ++ bad :: post)).err.isSome) := by
  refine ⟨?_, processBatchSeed_eq_filterMap marshal _, ?_⟩
  · rw [processBatchSeed_append]
    simp [processBatchSeed, hbad]
  · intro store
    have hb : buildWriteRequests marshal (pre ++ bad :: post) = none :=
      buildWriteRequests_none_of_mem marshal bad hbad _ (by simp)
    constructor <;> simp [processBatch, hb]

theorem c5_marshal_skip_amended_witness :
    processBatchSeed marshalCex ([1] ++ 0 :: [2]) =
      processBatchSeed marshalCex [1] ++ processBatchSeed marshalCex [2] ∧
    processBatchSeed marshalCex ([1] ++ 0 :: [2]) =
      ([1] ++ 0 :: [2]).filterMap marshalCex ∧
    (∀ store : ℕ → Bool,
      (processBatch marshalCex store ([1] ++ 0 :: [2])).calls = 0 ∧
      (processBatch marshalCex store ([1] ++ 0 :: [2])).err.isSome) :=
  c5_marshal_skip_amended marshalCex [1] [2] 0 rfl

lemma mem_dropLast_cons {α : Type} {b x : α} {l : List α}
    (h : b ∈ (x :: l).dropLast) : b = x ∨ b ∈ l.dropLast := by
  cases l with
  | nil => simp at h
  | cons y ys =>
    rw [List.dropLast_cons₂] at h
    rcases List.mem_cons.mp h with rfl | h
    · exact Or.inl rfl
    · exact Or.inr h

lemma worker_flushes_inv {A W : Type} (marshal : A → Option W)
    (stores : ℕ → ℕ → Bool) :
    ∀ (items acc : List A) (bc total : ℕ), acc.length < batchSize →
      (∀ b ∈ (worker marshal stores items acc bc total).1,
          b.length ≤ batchSize ∧ b ≠ []) ∧
      (∀ b ∈ (worker marshal stores items acc bc total).1.dropLast,
          b.length = batchSize) := by
  intro items
  induction items with
  | nil =>
    intro acc bc total hacc
    simp only [worker]
    split_ifs with h
    · exact ⟨fun b hb => absurd hb (List.not_mem_nil b),
        fun b hb => absurd hb (by simp)⟩
    · constructor
      · intro b hb
        have hb2 : b ∈ [acc] := hb
        rw [List.mem_singleton] at hb2
        subst hb2
        refine ⟨hacc.le, ?_⟩
        intro hnil
        exact h (by simp [hnil])
      · intro b hb
        have hb2 : b ∈ ([acc] : List (List A)).dropLast := hb
        simp at hb2
  | cons a rest ih =>
    intro acc bc total hacc
    simp only [worker]
    split_ifs with h
    · have hlen : (acc ++ [a]).length = batchSize := by
        have hl : (acc ++ [a]).length = acc.length + 1 := by simp
        omega
      constructor
      · intro b hb
        rcases List.mem_cons.mp hb with rfl | hb2
        · exact ⟨hlen.le, by simp⟩
        · exact (ih [] (bc + 1) _ (by norm_num [batchSize])).1 b hb2
      · intro b hb
        rcases mem_dropLast_cons hb with rfl | hb2
        · exact hlen
        · exact (ih [] (bc + 1) _ (by norm_num [batchSize])).2 b hb2
    · have hacc2 : (acc ++ [a]).length < batchSize := by
        have hl : (acc ++ [a]).length = acc.length + 1 := by simp
        omega
      exact ih (acc ++ [a]) bc total hacc2

lemma countP_le_one_of_dropLast {α : Type} (p : α → Bool) :
    ∀ (l : List α), (∀ b ∈ l.dropLast, p b = false) → l.countP p ≤ 1 := by
  intro l
  induction l with
  | nil => intro _; simp
  | cons a rest ih =>
    intro h
    cases rest with
    | nil => cases hpa : p a <;> simp [List.countP_cons, hpa]
    | cons c cs =>
      have hpa : p a = false := h a (by
        rw [List.dropLast_cons₂]
        exact List.mem_cons_self a _)
      have h2 : ∀ b ∈ (c :: cs).dropLast, p b = false := fun b hb => h b (by
        rw [List.dropLast_cons₂]
        exact List.mem_cons_of_mem a hb)
      rw [List.countP_cons, hpa]
      simpa using ih h2

/-- C6: every batch a worker flushes has size at most batchSize (25) and is
non-empty; every flushed batch except possibly the last has size exactly
batchSize; and at most one flushed batch (the final residual) has size below
batchSize. -/
theorem c6_batch_sizes {A W : Type} (marshal : A → Option W)
    (stores : ℕ → ℕ → Bool) (items : List A) :
    (∀ b ∈ (worker marshal stores items [] 0 0).1,
        b.length ≤ batchSize ∧ b ≠ []) ∧
    (∀ b ∈ (worker marshal stores items [] 0 0).1.dropLast,
        b.length = batchSize) ∧
    (worker marshal stores items [] 0 0).1.countP
      (fun b => decide (b.length < batchSize)) ≤ 1 := by
  obtain ⟨h1, h2⟩ :=
    worker_flushes_inv marshal stores items [] 0 0 (by norm_num [batchSize])
  refine ⟨h1, h2, countP_le_one_of_dropLast _ _ ?_⟩
  intro b hb
  simp [h2 b hb]

theorem c6_batch_sizes_witness :
    (∀ b ∈ (worker some trueStores (List.range 26) [] 0 0).1,
        b.length ≤ batchSize ∧ b ≠ []) ∧
    (∀ b ∈ (worker some trueStores (List.range 26) [] 0 0).1.dropLast,
        b.length = batchSize) ∧
    (worker some trueStores (List.range 26) [] 0 0).1.countP
      (fun b => decide (b.length < batchSize)) ≤ 1 :=
  c6_batch_sizes some trueStores (List.range 26)

/-- C10: Validate returns nil exactly when the ticker is non-empty, the
timestamp is positive, high is at least low, the four prices are positive,
the volume is non-negative, and the vwap is either exactly 0 (treated as
absent) or lies between low and high; in particular Validate accepts a bar
whose open exceeds its high and a bar whose close is below its low, since it
never compares open or close against high and low. -/
theorem c10_validate_iff (d : DailySummary) :
    (d.Validate = none ↔
      (d.ticker ≠ "" ∧ 0 < d.timestamp ∧ d.low ≤ d.high ∧ 0 < d.open_ ∧
       0 < d.close ∧ 0 < d.high ∧ 0 < d.low ∧ 0 ≤ d.volume ∧
       (d.vwap = 0 ∨ (d.low ≤ d.vwap ∧ d.vwap ≤ d.high)))) ∧
    exOpenAboveHigh.Validate = none ∧
    exOpenAboveHigh.high < exOpenAboveHigh.open_ ∧
    exCloseBelowLow.Validate = none ∧
    exCloseBelowLow.close < exCloseBelowLow.low := by
  refine ⟨⟨?_, ?_⟩, by decide, by decide, by decide, by decide⟩
  · intro h
    unfold DailySummary.Validate at h
    split_ifs at h with h1 h2 h3 h4 h5 h6
    simp at h
    push_neg at h4
    refine ⟨h1, not_le.mp h2, not_lt.mp h3, h4.1, h4.2.1, h4.2.2.1, h4.2.2.2,
      not_lt.mp h5, ?_⟩
    by_cases hv : d.vwap = 0
    · exact Or.inl hv
    · push_neg at h6
      exact Or.inr (h6 hv)
  · rintro ⟨ht, hts, hhl, ho, hc, hh, hl, hv, hw⟩
    have h6 : ¬(d.vwap ≠ 0 ∧ (d.vwap < d.low ∨ d.vwap > d.high)) := by
      rintro ⟨hne, hor⟩
      rcases hw with hw0 | ⟨hwl, hwh⟩
      · exact hne hw0
      · rcases hor with hlt | hgt
        · linarith
        · linarith
    unfold DailySummary.Validate
    rw [if_neg ht, if_neg (not_le.mpr hts), if_neg (not_lt.mpr hhl),
      if_neg (by push_neg; exact ⟨ho, hc, hh, hl⟩), if_neg (not_lt.mpr hv),
      if_neg h6]

theorem c10_validate_iff_witness :
    (exOpenAboveHigh.Validate = none ↔
      (exOpenAboveHigh.ticker ≠ "" ∧ 0 < exOpenAboveHigh.timestamp ∧
       exOpenAboveHigh.low ≤ exOpenAboveHigh.high ∧ 0 < exOpenAboveHigh.open_ ∧
       0 < exOpenAboveHigh.close ∧ 0 < exOpenAboveHigh.high ∧
       0 < exOpenAboveHigh.low ∧ 0 ≤ exOpenAboveHigh.volume ∧
       (exOpenAboveHigh.vwap = 0 ∨
        (exOpenAboveHigh.low ≤ exOpenAboveHigh.vwap ∧
         exOpenAboveHigh.vwap ≤ exOpenAboveHigh.high)))) ∧
    exOpenAboveHigh.Validate = none ∧
    exOpenAboveHigh.high < exOpenAboveHigh.open_ ∧
    exCloseBelowLow.Validate = none ∧
    exCloseBelowLow.close < exCloseBelowLow.low :=
  c10_validate_iff exOpenAboveHigh

theorem c9_first_bar_amended_witness :
    95 ≤ ((genLoopAux ("TEST") 0 1 1 0 100 constSrc).1.headI).close ∧
    ((genLoopAux ("TEST") 0 1 1 0 100 constSrc).1.headI).close < 110 ∧
    (genLoopAux ("TEST") 0 1 1 0 100 constSrc).1.head? =
      some ((genLoopAux ("TEST") 0 1 1 0 100 constSrc).1.headI) :=
  c9_first_bar_amended 0 1 0 0 constSrc constSrc constSrc_valid
    (fun _ => rfl) (fun _ => rfl) rfl
    ((genLoopAux ("TEST") 0 1 1 0 100 constSrc).1.headI)
    (genLoopAux_head_headI ("TEST") 0 1 0 0 100 constSrc)

end Profitify
